import Mathlib

/-!
Verification development for the D&D Dungeon Master session worker
(`src/session.ts`).  The data model and every operation the claims touch are
embedded shallowly: JavaScript strings become Lean `String`, the `Map` of
players becomes an insertion-ordered association list, mutation becomes
explicit state passing, and the regular expressions used by the effect
resolver are embedded via a small backtracking matcher (`RE`) whose
quantifiers range over character classes only, exactly the fragment the
source patterns use.  JavaScript regex semantics modelled: leftmost match,
alternation prefers the left branch, greedy/lazy quantifiers, `matchAll`
restarts after the end of each (non-empty) match.  All source patterns carry
the `i` flag, so literal matching is case-insensitive throughout.
-/

/-! ## Character classes and string helpers -/

/-- JavaScript `\s` for the ASCII range: space, tab, LF, CR, FF, VT. -/
def isSpaceChar (c : Char) : Bool :=
  c.toNat == 32 || c.toNat == 9 || c.toNat == 10 || c.toNat == 13 ||
  c.toNat == 12 || c.toNat == 11

/-- The regex class `[A-Za-z]`. -/
def isAsciiLetter (c : Char) : Bool :=
  (65 ≤ c.toNat && c.toNat ≤ 90) || (97 ≤ c.toNat && c.toNat ≤ 122)

/-- The regex class `\d`. -/
def isDigitChar (c : Char) : Bool := 48 ≤ c.toNat && c.toNat ≤ 57

/-- JavaScript `\w` (word character, used for `\b` boundaries). -/
def isWordChar (c : Char) : Bool :=
  isAsciiLetter c || isDigitChar c || c.toNat == 95

/-- `String.prototype.toLowerCase` (ASCII fragment). -/
def strLower (s : String) : String := String.mk (s.data.map Char.toLower)

/-- Drop leading whitespace from a character list. -/
def trimLeadWs : List Char → List Char
  | [] => []
  | c :: t => if isSpaceChar c then trimLeadWs t else c :: t

/-- `String.prototype.trim`. -/
def strTrim (s : String) : String :=
  String.mk (trimLeadWs ((trimLeadWs s.data.reverse).reverse))

/-- Does `hay` start with `needle` (exact character equality)? -/
def leadsWith : List Char → List Char → Bool
  | [], _ => true
  | _ :: _, [] => false
  | a :: as, b :: bs => a == b && leadsWith as bs

/-- `String.prototype.includes`: `needle` occurs contiguously in `hay`. -/
def containsSeq (needle hay : List Char) : Bool :=
  match hay with
  | [] => needle.isEmpty
  | _ :: t => leadsWith needle hay || containsSeq needle t

/-- `parseInt(s, 10)` restricted to all-digit capture groups. -/
def parseDigits (s : String) : Nat :=
  s.data.foldl (fun n c => n * 10 + (c.toNat - 48)) 0

/-! ## Regular-expression engine

The source uses only: case-insensitive literals, single-character classes,
concatenation, alternation, greedy `?`, and greedy/lazy `*` / greedy `+`
where the body is a single character class.  `reRun` enumerates the ways a
pattern can match a prefix of the input in JavaScript backtracking
preference order; the head of the list is the match the JS engine reports.
-/

/-- Numbered capture groups: group index paired with the captured text. -/
abbrev Caps := List (Nat × String)

/-- `match[i]`: the text of group `i`, or `none` when it did not participate. -/
def capGet (caps : Caps) (i : Nat) : Option String :=
  match caps with
  | [] => none
  | (j, v) :: t => if j == i then some v else capGet t i

/-- Regex abstract syntax for the fragment used by `src/session.ts`. -/
inductive RE where
  | eps : RE
  | lit : String → RE
  | cls : (Char → Bool) → RE
  | seq : RE → RE → RE
  | alt : RE → RE → RE
  | opt : RE → RE
  | starG : (Char → Bool) → RE
  | starL : (Char → Bool) → RE
  | plus : (Char → Bool) → RE
  | grp : Nat → RE → RE

/-- Case-insensitive literal match at the head of the input (all source
patterns carry the `i` flag). -/
def litMatch : List Char → List Char → Option (List Char)
  | [], s => some s
  | _ :: _, [] => none
  | l :: ls, c :: cs => if l.toLower == c.toLower then litMatch ls cs else none

/-- All ways `r` matches a prefix of `s`, as (remaining input, captures),
in JS backtracking preference order. -/
def reRun : RE → List Char → List (List Char × Caps)
  | .eps, s => [(s, [])]
  | .lit l, s =>
    match litMatch l.data s with
    | some rest => [(rest, [])]
    | none => []
  | .cls p, s =>
    match s with
    | [] => []
    | c :: rest => if p c then [(rest, [])] else []
  | .seq a b, s =>
    (reRun a s).flatMap fun x =>
      (reRun b x.1).map fun y => (y.1, x.2 ++ y.2)
  | .alt a b, s => reRun a s ++ reRun b s
  | .opt r, s => reRun r s ++ [(s, [])]
  | .starG p, s =>
    let k := (s.takeWhile p).length
    (List.range (k + 1)).map fun i => (s.drop (k - i), [])
  | .starL p, s =>
    let k := (s.takeWhile p).length
    (List.range (k + 1)).map fun i => (s.drop i, [])
  | .plus p, s =>
    let k := (s.takeWhile p).length
    (List.range k).map fun i => (s.drop (k - i), [])
  | .grp n r, s =>
    (reRun r s).map fun x =>
      (x.1, (n, String.mk (s.take (s.length - x.1.length))) :: x.2)

/-- The match the JS engine reports at this exact position: consumed length
and captures of the most-preferred way `r` matches a prefix of `s`. -/
def matchHere (r : RE) (s : List Char) : Option (Nat × Caps) :=
  match reRun r s with
  | [] => none
  | (rest, caps) :: _ => some (s.length - rest.length, caps)

/-- `text.matchAll(r)` (with the `g` flag): captures of every match,
scanning left to right and resuming after the end of each match.  The fuel
counts scan steps; every step drops at least one character, so the caller
passes the input length (structural recursion keeps this kernel-evaluable). -/
def scanAllGo (r : RE) : Nat → List Char → List Caps
  | 0, _ => []
  | _, [] => []
  | fuel + 1, c :: rest =>
    match matchHere r (c :: rest) with
    | some (0, _) => scanAllGo r fuel rest
    | some (n + 1, caps) => caps :: scanAllGo r fuel (rest.drop n)
    | none => scanAllGo r fuel rest

/-- `text.matchAll(r)` on the whole input. -/
def scanAll (r : RE) (s : List Char) : List Caps := scanAllGo r s.length s

/-- `r.test(text)`: does `r` match anywhere in `s`? -/
def reTest (r : RE) (s : List Char) : Bool :=
  match s with
  | [] => !(reRun r []).isEmpty
  | _ :: rest => !(reRun r s).isEmpty || reTest r rest

/-- Anchored `^...$` test: some way of matching `r` consumes all of `s`. -/
def reTestFull (r : RE) (s : List Char) : Bool :=
  (reRun r s).any fun x => x.1.isEmpty

/-- Captures of the first match of `r` anywhere in `s` (JS `String.match`
without the `g` flag). -/
def firstMatch (r : RE) (s : List Char) : Option Caps :=
  match s with
  | [] =>
    match reRun r [] with
    | (_, caps) :: _ => some caps
    | [] => none
  | _ :: rest =>
    match reRun r s with
    | (_, caps) :: _ => some caps
    | [] => firstMatch r rest

/-- `text.replace(r, "")` with the `g` flag: delete every match of `r`
(fuel as in `scanAllGo`). -/
def removeMatchesGo (r : RE) : Nat → List Char → List Char
  | 0, s => s
  | _, [] => []
  | fuel + 1, c :: rest =>
    match matchHere r (c :: rest) with
    | some (0, _) => c :: removeMatchesGo r fuel rest
    | some (n + 1, _) => removeMatchesGo r fuel (rest.drop n)
    | none => c :: removeMatchesGo r fuel rest

/-- `text.replace(r, "")` on the whole input. -/
def removeMatches (r : RE) (s : List Char) : List Char :=
  removeMatchesGo r s.length s

/-! ## Pattern transcriptions

Each definition below transcribes one regex literal from `src/session.ts`
into the `RE` syntax, preserving alternation order and quantifier flavour.
-/

/-- Sequence a list of regex pieces. -/
def rcat (l : List RE) : RE := l.foldr RE.seq RE.eps

/-- Alternation of a list of regex pieces (left preference, source order). -/
def ralt : List RE → RE
  | [] => RE.eps
  | [r] => r
  | r :: rest => RE.alt r (ralt rest)

/-- A word with an optional trailing `s`, e.g. the source's `takes?`. -/
def sOpt (w : String) : RE := RE.seq (RE.lit w) (RE.opt (RE.lit "s"))

/-- `\s+`. -/
def wsP : RE := RE.plus isSpaceChar

/-- The class `[A-Za-z ']` used for character names. -/
def nameChar (c : Char) : Bool :=
  isAsciiLetter c || c.toNat == 32 || c.toNat == 39

/-- The class `[A-Za-z '\-]` used for item names. -/
def itemChar (c : Char) : Bool := nameChar c || c.toNat == 45

/-- The class `[A-Za-z\s]` used for generic enemy names. -/
def nameSpChar (c : Char) : Bool := isAsciiLetter c || isSpaceChar c

/-- `([A-Za-z][A-Za-z ']*)` (greedy), capture group `n`. -/
def nameG (n : Nat) : RE :=
  RE.grp n (RE.seq (RE.cls isAsciiLetter) (RE.starG nameChar))

/-- `([A-Za-z][A-Za-z ']*?)` (lazy), capture group `n`. -/
def nameL (n : Nat) : RE :=
  RE.grp n (RE.seq (RE.cls isAsciiLetter) (RE.starL nameChar))

/-- `([A-Za-z][A-Za-z '\-]*)` (greedy), capture group `n`. -/
def itemG (n : Nat) : RE :=
  RE.grp n (RE.seq (RE.cls isAsciiLetter) (RE.starG itemChar))

/-- `(\d+)`, capture group `n`. -/
def digitsG (n : Nat) : RE := RE.grp n (RE.plus isDigitChar)

/-- `(?:points?\s+of\s+)?`. -/
def optPointsOf : RE := RE.opt (rcat [sOpt "point", wsP, RE.lit "of", wsP])

/-- `(?:the\s+)?`. -/
def optThe : RE := RE.opt (RE.seq (RE.lit "the") wsP)

/-- `(?:hit\s+points?|hp)`. -/
def hitPtsOrHp : RE := ralt [rcat [RE.lit "hit", wsP, sOpt "point"], RE.lit "hp"]

/-- `(?:hit\s+points?|hp|health)`. -/
def hitPtsHpHealth : RE :=
  ralt [rcat [RE.lit "hit", wsP, sOpt "point"], RE.lit "hp", RE.lit "health"]

/-- A damage/healing pattern together with the source's extraction dispatch:
`numFirst` is the value of
`pattern.source.startsWith((backslash-d-plus group)) || pattern.source.includes("deals")`,
i.e. whether the amount is `match[1]` and the name `match[2]`. -/
structure DamagePattern where
  re : RE
  numFirst : Bool

/-- The five `damagePatterns` of `applyEnemyDamage`, in source order. -/
def enemyDamagePatterns : List DamagePattern :=
  [ -- /deals\s+(\d+)\s+(?:points?\s+of\s+)?damage\s+to\s+(?:the\s+)?([A-Za-z][A-Za-z ']*)/gi
    ⟨rcat [RE.lit "deals", wsP, digitsG 1, wsP, optPointsOf, RE.lit "damage",
           wsP, RE.lit "to", wsP, optThe, nameG 2], true⟩,
    -- /(?:the\s+)?([A-Za-z][A-Za-z ']*?)\s+takes?\s+(\d+)\s+(?:points?\s+of\s+)?damage/gi
    ⟨rcat [optThe, nameL 1, wsP, sOpt "take", wsP, digitsG 2, wsP, optPointsOf,
           RE.lit "damage"], false⟩,
    -- /(\d+)\s+(?:points?\s+of\s+)?damage\s+to\s+(?:the\s+)?([A-Za-z][A-Za-z ']*)/gi
    ⟨rcat [digitsG 1, wsP, optPointsOf, RE.lit "damage", wsP, RE.lit "to", wsP,
           optThe, nameG 2], true⟩,
    -- /(?:the\s+)?([A-Za-z][A-Za-z ']*?)\s+suffers?\s+(\d+)\s+(?:points?\s+of\s+)?damage/gi
    ⟨rcat [optThe, nameL 1, wsP, sOpt "suffer", wsP, digitsG 2, wsP, optPointsOf,
           RE.lit "damage"], false⟩,
    -- /strikes?\s+(?:the\s+)?([A-Za-z][A-Za-z ']*?)\s+for\s+(\d+)\s+damage/gi
    ⟨rcat [sOpt "strike", wsP, optThe, nameL 1, wsP, RE.lit "for", wsP,
           digitsG 2, wsP, RE.lit "damage"], false⟩ ]

/-- The four `damagePatterns` of `applyPlayerDamage`, in source order. -/
def playerDamagePatterns : List DamagePattern :=
  [ -- /([A-Za-z][A-Za-z ']*?)\s+takes?\s+(\d+)\s+(?:points?\s+of\s+)?damage/gi
    ⟨rcat [nameL 1, wsP, sOpt "take", wsP, digitsG 2, wsP, optPointsOf,
           RE.lit "damage"], false⟩,
    -- /(\d+)\s+(?:points?\s+of\s+)?damage\s+to\s+([A-Za-z][A-Za-z ']*)/gi
    ⟨rcat [digitsG 1, wsP, optPointsOf, RE.lit "damage", wsP, RE.lit "to", wsP,
           nameG 2], true⟩,
    -- /([A-Za-z][A-Za-z ']*?)\s+suffers?\s+(\d+)\s+(?:points?\s+of\s+)?damage/gi
    ⟨rcat [nameL 1, wsP, sOpt "suffer", wsP, digitsG 2, wsP, optPointsOf,
           RE.lit "damage"], false⟩,
    -- /([A-Za-z][A-Za-z ']*?)\s+loses?\s+(\d+)\s+(?:hit\s+points?|hp)/gi
    ⟨rcat [nameL 1, wsP, sOpt "lose", wsP, digitsG 2, wsP, hitPtsOrHp], false⟩ ]

/-- The four `healingPatterns` of `applyPlayerHealing`, in source order. -/
def healingPatterns : List DamagePattern :=
  [ -- /([A-Za-z][A-Za-z ']*?)\s+heals?\s+(\d+)\s+(?:hit\s+points?|hp)/gi
    ⟨rcat [nameL 1, wsP, sOpt "heal", wsP, digitsG 2, wsP, hitPtsOrHp], false⟩,
    -- /([A-Za-z][A-Za-z ']*?)\s+recovers?\s+(\d+)\s+(?:points?\s+of\s+)?(?:damage|health|hp)/gi
    ⟨rcat [nameL 1, wsP, sOpt "recover", wsP, digitsG 2, wsP, optPointsOf,
           ralt [RE.lit "damage", RE.lit "health", RE.lit "hp"]], false⟩,
    -- /([A-Za-z][A-Za-z ']*?)\s+gains?\s+(\d+)\s+(?:hit\s+points?|hp|health)/gi
    ⟨rcat [nameL 1, wsP, sOpt "gain", wsP, digitsG 2, wsP, hitPtsHpHealth], false⟩,
    -- /(\d+)\s+(?:hit\s+points?|hp|health)\s+(?:restored|healed)\s+to\s+([A-Za-z][A-Za-z ']*)/gi
    ⟨rcat [digitsG 1, wsP, hitPtsHpHealth, wsP,
           ralt [RE.lit "restored", RE.lit "healed"], wsP, RE.lit "to", wsP,
           nameG 2], true⟩ ]

/-- The five `combatTriggers` of `detectCombatScenarios`, in source order. -/
def combatTriggers : List RE :=
  [ -- /(?:attack|combat|fight|battle|engage)(?:s|ing)?/i
    rcat [ralt [RE.lit "attack", RE.lit "combat", RE.lit "fight",
                RE.lit "battle", RE.lit "engage"],
          RE.opt (ralt [RE.lit "s", RE.lit "ing"])],
    -- /(?:enemy|enemies|monster|monsters|creature|creatures|foe|foes)\s+(?:appear|emerges?|attack|charge)/i
    rcat [ralt [RE.lit "enemy", RE.lit "enemies", RE.lit "monster",
                RE.lit "monsters", RE.lit "creature", RE.lit "creatures",
                RE.lit "foe", RE.lit "foes"],
          wsP,
          ralt [RE.lit "appear", sOpt "emerge", RE.lit "attack", RE.lit "charge"]],
    -- /(?:roll|make)\s+(?:initiative|an?\s+initiative)/i
    rcat [ralt [RE.lit "roll", RE.lit "make"], wsP,
          ralt [RE.lit "initiative",
                rcat [RE.lit "a", RE.opt (RE.lit "n"), wsP, RE.lit "initiative"]]],
    -- /initiative\s+(?:roll|order)/i
    rcat [RE.lit "initiative", wsP, ralt [RE.lit "roll", RE.lit "order"]],
    -- /(?:a|the)\s+(?:goblin|orc|skeleton|dragon|wolf|spider|bandit|guard)(?:s)?\s+(?:attack|charge|leap|strike)/i
    rcat [ralt [RE.lit "a", RE.lit "the"], wsP,
          ralt [RE.lit "goblin", RE.lit "orc", RE.lit "skeleton", RE.lit "dragon",
                RE.lit "wolf", RE.lit "spider", RE.lit "bandit", RE.lit "guard"],
          RE.opt (RE.lit "s"), wsP,
          ralt [RE.lit "attack", RE.lit "charge", RE.lit "leap", RE.lit "strike"]] ]

/-- `hasCombatTrigger` from `detectCombatScenarios`:
`combatTriggers.some(pattern => pattern.test(text))`. -/
def hasCombatTrigger (text : String) : Bool :=
  combatTriggers.any fun r => reTest r text.data

/-- `(?:a|the|\d+)` leading piece of the enemy patterns. -/
def artOrNum : RE := ralt [RE.lit "a", RE.lit "the", RE.plus isDigitChar]

/-- The fixed creature vocabulary of the first enemy pattern, source order. -/
def creatureAlt : RE :=
  ralt [RE.lit "goblin", RE.lit "orc", RE.lit "skeleton", RE.lit "dragon",
        RE.lit "wolf", RE.lit "spider", RE.lit "bandit", RE.lit "guard",
        RE.lit "troll", RE.lit "ogre", RE.lit "zombie", RE.lit "ghoul",
        RE.lit "wraith", RE.lit "lich", RE.lit "demon", RE.lit "devil",
        RE.lit "giant", RE.lit "minotaur", RE.lit "basilisk", RE.lit "manticore",
        RE.lit "harpy", RE.lit "medusa", RE.lit "cyclops", RE.lit "hydra",
        RE.lit "griffin", RE.lit "pegasus", RE.lit "unicorn", RE.lit "phoenix",
        RE.lit "roc", RE.lit "kraken", RE.lit "leviathan", RE.lit "behemoth",
        RE.lit "colossus"]

/-- The three `enemyPatterns` of `detectCombatScenarios`, in source order. -/
def enemyPatterns : List RE :=
  [ -- /(?:a|the|\d+)\s+(goblin|...|colossus)(?:s)?(?:\s+\((\d+)\s+HP\))?/gi
    rcat [artOrNum, wsP, RE.grp 1 creatureAlt, RE.opt (RE.lit "s"),
          RE.opt (rcat [wsP, RE.lit "(", digitsG 2, wsP, RE.lit "HP", RE.lit ")"])],
    -- /(?:a|the|\d+)\s+([A-Za-z][A-Za-z\s]*?)\s+\((\d+)\s+HP\)/gi
    rcat [artOrNum, wsP, RE.grp 1 (RE.seq (RE.cls isAsciiLetter) (RE.starL nameSpChar)),
          wsP, RE.lit "(", digitsG 2, wsP, RE.lit "HP", RE.lit ")"],
    -- /(?:a|the|\d+)\s+([A-Za-z][A-Za-z\s]*?)\s+(?:appears?|emerges?|materializes?|attacks?)/gi
    rcat [artOrNum, wsP, RE.grp 1 (RE.seq (RE.cls isAsciiLetter) (RE.starL nameSpChar)),
          wsP, ralt [sOpt "appear", sOpt "emerge", sOpt "materialize", sOpt "attack"]] ]

/-- `^(end|finish|close|stop)\s*(game|session)?$` (anchored, `i` flag). -/
def endCommandRe : RE :=
  rcat [RE.grp 1 (ralt [RE.lit "end", RE.lit "finish", RE.lit "close", RE.lit "stop"]),
        RE.starG isSpaceChar,
        RE.opt (RE.grp 2 (ralt [RE.lit "game", RE.lit "session"]))]

/-- `/timeout|timed out|network|503|504/i` of `isRetryableError`. -/
def retryableRe : RE :=
  ralt [RE.lit "timeout", RE.lit "timed out", RE.lit "network",
        RE.lit "503", RE.lit "504"]

/-- The `<thinking> ... </thinking>` marker pair of `extractThinking`. -/
def thinkingRe : RE :=
  rcat [RE.lit "<thinking>", RE.grp 1 (RE.starL fun _ => true),
        RE.lit "</thinking>"]

/-- `^(the|a|an)\s+` used by `findEnemyByName` (applied to lowercased text). -/
def articleTheAAn : RE :=
  rcat [RE.grp 1 (ralt [RE.lit "the", RE.lit "a", RE.lit "an"]), wsP]

/-- `^(a|an|the)\s+` used by the enemy-name cleanup in `detectCombatScenarios`. -/
def articleAAnThe : RE :=
  rcat [RE.grp 1 (ralt [RE.lit "a", RE.lit "an", RE.lit "the"]), wsP]

/-- `(?:a|an|the)` article piece of the item-gain patterns. -/
def artAAnThe : RE := ralt [RE.lit "a", RE.lit "an", RE.lit "the"]

/-- `(?:a|an|the|their)` article piece of the item-loss patterns. -/
def artAAnTheTheir : RE :=
  ralt [RE.lit "a", RE.lit "an", RE.lit "the", RE.lit "their"]

/-- The four `gainItemPatterns` of `applyInventoryChanges`, in source order. -/
def itemGainPatterns : List RE :=
  [ -- /([A-Za-z][A-Za-z ']*?)\s+(?:finds?|discovers?|picks?\s+up|obtains?)\s+(?:a|an|the)\s+([A-Za-z][A-Za-z '\-]*)/gi
    rcat [nameL 1, wsP,
          ralt [sOpt "find", sOpt "discover", rcat [sOpt "pick", wsP, RE.lit "up"],
                sOpt "obtain"],
          wsP, artAAnThe, wsP, itemG 2],
    -- /([A-Za-z][A-Za-z ']*?)\s+(?:receives?|gets?|gains?)\s+(?:a|an|the)\s+([A-Za-z][A-Za-z '\-]*)/gi
    rcat [nameL 1, wsP, ralt [sOpt "receive", sOpt "get", sOpt "gain"],
          wsP, artAAnThe, wsP, itemG 2],
    -- /(?:give|hand)\s+([A-Za-z][A-Za-z ']*?)\s+(?:a|an|the)\s+([A-Za-z][A-Za-z '\-]*)/gi
    rcat [ralt [RE.lit "give", RE.lit "hand"], wsP, nameL 1, wsP, artAAnThe,
          wsP, itemG 2],
    -- /([A-Za-z][A-Za-z ']*?)\s+(?:loots?|takes?)\s+(?:a|an|the)\s+([A-Za-z][A-Za-z '\-]*)/gi
    rcat [nameL 1, wsP, ralt [sOpt "loot", sOpt "take"], wsP, artAAnThe,
          wsP, itemG 2] ]

/-- The two `loseItemPatterns` of `applyInventoryChanges`, in source order. -/
def itemLosePatterns : List RE :=
  [ -- /([A-Za-z][A-Za-z ']*?)\s+(?:uses?|consumes?|drinks?)\s+(?:a|an|the|their)\s+([A-Za-z][A-Za-z '\-]*)/gi
    rcat [nameL 1, wsP, ralt [sOpt "use", sOpt "consume", sOpt "drink"],
          wsP, artAAnTheTheir, wsP, itemG 2],
    -- /([A-Za-z][A-Za-z ']*?)\s+(?:drops?|loses?|discards?)\s+(?:a|an|the|their)\s+([A-Za-z][A-Za-z '\-]*)/gi
    rcat [nameL 1, wsP, ralt [sOpt "drop", sOpt "lose", sOpt "discard"],
          wsP, artAAnTheTheir, wsP, itemG 2] ]

/-! ## Data model (`src/session.ts` interfaces) -/

/-- `interface Player` (`hp` is a JS number; the code only ever stores
integers in it, modelled as `Int` so the clamping at 0 is a real theorem). -/
structure Player where
  id : String
  name : String
  hp : Int
  inventory : List String
deriving Repr, DecidableEq

/-- One entry of `CombatState.enemies`. -/
structure Enemy where
  name : String
  hp : Int
deriving Repr, DecidableEq

/-- `interface CombatState`. -/
structure CombatState where
  active : Bool
  turnOrder : List String
  currentTurnIndex : Nat
  enemies : List Enemy
deriving Repr, DecidableEq

/-- `defaultCombatState()`. -/
def defaultCombatState : CombatState :=
  { active := false, turnOrder := [], currentTurnIndex := 0, enemies := [] }

/-- `interface Message` (`ts` is the `Date.now()` timestamp, passed in as a
parameter since time is external). -/
structure Message where
  actor : String
  content : String
  ts : Nat
deriving Repr, DecidableEq

/-- The coordinator's `Map<string, Player>`: an insertion-ordered
association list, matching JS `Map` iteration order. -/
abbrev PlayersMap := List (String × Player)

/-- `Map.prototype.get`. -/
def mapGet (m : PlayersMap) (k : String) : Option Player :=
  match m with
  | [] => none
  | (k2, v) :: t => if k2 == k then some v else mapGet t k

/-- `Map.prototype.set`: replace in place when the key exists (JS object
mutation keeps the entry position), append otherwise. -/
def mapSet (m : PlayersMap) (k : String) (v : Player) : PlayersMap :=
  match m with
  | [] => [(k, v)]
  | (k2, v2) :: t => if k2 == k then (k2, v) :: t else (k2, v2) :: mapSet t k v

/-- `Array.from(players.values())`. -/
def mapValues (m : PlayersMap) : List Player := m.map (·.2)

/-! ## Effect resolution engine (`class EffectResolver`) -/

/-- The `hpMap` lookup table of `getDefaultEnemyHp`. -/
def hpMap : List (String × Int) :=
  [("goblin", 7), ("orc", 15), ("skeleton", 13), ("zombie", 22), ("wolf", 11),
   ("spider", 4), ("bandit", 11), ("guard", 11), ("troll", 84), ("ogre", 59),
   ("dragon", 200), ("lich", 135), ("demon", 85), ("devil", 85),
   ("giant", 138), ("minotaur", 76), ("basilisk", 52), ("harpy", 38),
   ("cyclops", 138), ("hydra", 172)]

/-- `getDefaultEnemyHp`: table lookup on the lowercased name, else the
global default 15 (the source writes `hpMap[name] || 15`; no table value is
falsy, so plain lookup-with-default is the same function). -/
def getDefaultEnemyHp (enemyName : String) : Int :=
  match hpMap.lookup (strLower enemyName) with
  | some v => v
  | none => 15

/-- `text.split(" ")` (split on a single literal space, JS semantics:
`""` splits to `[""]`, adjacent spaces produce empty fragments). -/
def splitOnSpaceCh (s : List Char) : List (List Char) :=
  match s with
  | [] => [[]]
  | c :: rest =>
    let r := splitOnSpaceCh rest
    if c.toNat == 32 then [] :: r
    else
      match r with
      | [] => [[c]]
      | h :: t => (c :: h) :: t

/-- `word.charAt(0).toUpperCase() + word.slice(1)` (empty word stays empty). -/
def capitalizeWord : List Char → List Char
  | [] => []
  | c :: cs => c.toUpper :: cs

/-- `words.join(" ")`. -/
def joinWithSpace : List (List Char) → List Char
  | [] => []
  | [w] => w
  | w :: ws => w ++ Char.ofNat 32 :: joinWithSpace ws

/-- `name.split(" ").map(capitalize).join(" ")` applied by the enemy-name
cleanup (the argument is already lowercased at the call site). -/
def capitalizeWords (s : String) : String :=
  String.mk (joinWithSpace ((splitOnSpaceCh s.data).map capitalizeWord))

/-- `s.replace(anchored-article-regex, "")`: strip the first match of `r`
when it starts at position 0 (all article regexes are `^`-anchored). -/
def stripLeadingMatch (r : RE) (s : String) : String :=
  match matchHere r s.data with
  | some (n, _) => String.mk (s.data.drop n)
  | none => s

/-- The enemy-name cleanup of `detectCombatScenarios`:
strip a leading article, lowercase, capitalize each word. -/
def cleanEnemyName (raw : String) : String :=
  capitalizeWords (strLower (stripLeadingMatch articleAAnThe raw))

/-- The hp chosen for a newly detected enemy: the explicit `(N HP)` capture
when group 2 participated, else the per-creature default. -/
def enemyHpOfMatch (caps : Caps) (rawName : String) : Int :=
  match capGet caps 2 with
  | some d => (parseDigits d : Int)
  | none => getDefaultEnemyHp rawName

/-- One iteration of the enemy-collection loop of `detectCombatScenarios`:
state is (`foundEnemies` key set, `enemies` list). -/
def addEnemyFromMatch (st : List String × List Enemy) (caps : Caps) :
    List String × List Enemy :=
  match capGet caps 1 with
  | none => st
  | some raw0 =>
    let rawName := strTrim raw0
    let hp := enemyHpOfMatch caps rawName
    let name := cleanEnemyName rawName
    let key := strLower name
    if st.1.contains key || name.length ≤ 1 then st
    else (key :: st.1, st.2 ++ [{ name := name, hp := hp }])

/-- All matches of the three enemy patterns, in pattern order. -/
def enemyMatches (text : String) : List Caps :=
  enemyPatterns.foldl (fun acc r => acc ++ scanAll r text.data) []

/-- The `enemies` list collected by `detectCombatScenarios`. -/
def scanEnemies (text : String) : List Enemy :=
  ((enemyMatches text).foldl addEnemyFromMatch ([], [])).2

/-- `Array.from(players.values()).map(p => p.name)`. -/
def playerNames (ps : PlayersMap) : List String := (mapValues ps).map (·.name)

/-- `detectCombatScenarios(text, players, combat)`. -/
def detectCombatScenarios (text : String) (ps : PlayersMap) (combat : CombatState) :
    CombatState :=
  if combat.active then combat
  else if !hasCombatTrigger text then combat
  else
    let enemies := scanEnemies text
    if enemies.isEmpty then combat
    else
      { active := true, enemies := enemies,
        turnOrder := playerNames ps ++ enemies.map (·.name),
        currentTurnIndex := 0 }

/-- `checkCombatEnd(combat)`. -/
def checkCombatEnd (combat : CombatState) : CombatState :=
  if !combat.active then combat
  else if (combat.enemies.filter (fun e => 0 < e.hp)).isEmpty then
    { active := false, enemies := [], turnOrder := [], currentTurnIndex := 0 }
  else combat

/-- `findEnemyByName(enemies, searchName)`, returning the index of the found
enemy (the source returns the object itself and mutates it in place). -/
def findEnemyByName (enemies : List Enemy) (searchName : String) : Option Nat :=
  let clean := strTrim (stripLeadingMatch articleTheAAn (strLower searchName))
  match enemies.findIdx? (fun e => strLower e.name == clean) with
  | some i => some i
  | none =>
    match enemies.findIdx? (fun e => containsSeq clean.data (strLower e.name).data) with
    | some i => some i
    | none => enemies.findIdx? (fun e => containsSeq (strLower e.name).data clean.data)

/-- Replace the element at index `i` (no-op when out of range). -/
def modifyAt {α : Type} (l : List α) (i : Nat) (f : α → α) : List α :=
  match l, i with
  | [], _ => []
  | x :: t, 0 => f x :: t
  | x :: t, n + 1 => x :: modifyAt t n f

/-- The name/amount extraction shared by the damage/healing loops, following
the source's `numFirst` dispatch; the name is `.trim()`-ed as in the source. -/
def extractNameAmount (numFirst : Bool) (caps : Caps) : Option (String × Nat) :=
  if numFirst then
    match capGet caps 1, capGet caps 2 with
    | some d, some nm => some (strTrim nm, parseDigits d)
    | _, _ => none
  else
    match capGet caps 1, capGet caps 2 with
    | some nm, some d => some (strTrim nm, parseDigits d)
    | _, _ => none

/-- The body of the enemy-damage match loop:
`enemy.hp = Math.max(0, enemy.hp - dmg)` on the found enemy when `dmg > 0`. -/
def enemyDamageHit (es : List Enemy) (nm : String) (dmg : Nat) : List Enemy :=
  if 0 < dmg then
    match findEnemyByName es nm with
    | some i => modifyAt es i (fun e => { e with hp := max 0 (e.hp - (dmg : Int)) })
    | none => es
  else es

/-- `applyEnemyDamage(text, combat)`. -/
def applyEnemyDamage (text : String) (combat : CombatState) : CombatState :=
  if !combat.active || combat.enemies.isEmpty then combat
  else
    { combat with enemies :=
        enemyDamagePatterns.foldl (fun es pat =>
          (scanAll pat.re text.data).foldl (fun es caps =>
            match extractNameAmount pat.numFirst caps with
            | some (nm, dmg) => enemyDamageHit es nm dmg
            | none => es) es) combat.enemies }

/-- Update the first player (in roster order) whose lowercased name equals
`nm`; the source finds the object via `Array.from(values()).find` and
mutates it in place. -/
def updateFirstByName (ps : PlayersMap) (nm : String) (f : Player → Player) :
    PlayersMap :=
  match ps with
  | [] => []
  | (k, p) :: t =>
    if strLower p.name == nm then (k, f p) :: t
    else (k, p) :: updateFirstByName t nm f

/-- `applyPlayerDamage(text, players)`:
`player.hp = Math.max(0, player.hp - dmg)` when `dmg > 0`. -/
def applyPlayerDamage (text : String) (ps : PlayersMap) : PlayersMap :=
  playerDamagePatterns.foldl (fun ps pat =>
    (scanAll pat.re text.data).foldl (fun ps caps =>
      match extractNameAmount pat.numFirst caps with
      | some (nm, dmg) =>
        if 0 < dmg then
          updateFirstByName ps (strLower nm)
            (fun p => { p with hp := max 0 (p.hp - (dmg : Int)) })
        else ps
      | none => ps) ps) ps

/-- `applyPlayerHealing(text, players)`:
`player.hp = Math.min(maxHp, player.hp + heal)` with `maxHp = 20`. -/
def applyPlayerHealing (text : String) (ps : PlayersMap) : PlayersMap :=
  healingPatterns.foldl (fun ps pat =>
    (scanAll pat.re text.data).foldl (fun ps caps =>
      match extractNameAmount pat.numFirst caps with
      | some (nm, heal) =>
        if 0 < heal then
          updateFirstByName ps (strLower nm)
            (fun p => { p with hp := min 20 (p.hp + (heal : Int)) })
        else ps
      | none => ps) ps) ps

/-- `itemName.toLowerCase().replace(non-item-chars, "")`: keep `a`-`z`,
whitespace and hyphen (the argument is lowercased at the call sites). -/
def filterItemChars (s : String) : String :=
  String.mk (s.data.filter fun c =>
    (97 ≤ c.toNat && c.toNat ≤ 122) || isSpaceChar c || c.toNat == 45)

/-- Does the word `w` occur in `s` with `\b` boundaries on both sides? -/
def wordAt (w : List Char) (s : List Char) : Bool :=
  match litMatch w s with
  | some rest =>
    match rest with
    | [] => true
    | c :: _ => !isWordChar c
  | none => false

/-- Scan for a `\b`-bounded occurrence of `w`, tracking whether the previous
character was a word character. -/
def hasWord (w : List Char) : Bool → List Char → Bool
  | _, [] => false
  | prevW, c :: rest =>
    (!prevW && wordAt w (c :: rest)) || hasWord w (isWordChar c) rest

/-- The non-item noun filter `/\b(room|door|way|path|area|place|time|chance)\b/i`. -/
def badItemWords : List String :=
  ["room", "door", "way", "path", "area", "place", "time", "chance"]

/-- `.test` of the non-item noun filter. -/
def badItemWordTest (item : String) : Bool :=
  badItemWords.any fun w => hasWord w.data false item.data

/-- One match of a gain pattern: add the normalized item to the named
player's inventory unless already present. -/
def itemGainStep (ps : PlayersMap) (caps : Caps) : PlayersMap :=
  match capGet caps 1, capGet caps 2 with
  | some pn, some it0 =>
    let playerName := strLower (strTrim pn)
    let itemName := strTrim it0
    if itemName.length < 2 || badItemWordTest itemName then ps
    else
      updateFirstByName ps playerName fun p =>
        let item := strTrim (filterItemChars (strLower itemName))
        if p.inventory.contains item then p
        else { p with inventory := p.inventory ++ [item] }
  | _, _ => ps

/-- `inventory.findIndex(item => item.includes(itemName))` + `splice`:
remove the first inventory entry containing the matched text. -/
def removeFirstContaining (inv : List String) (item : String) : List String :=
  match inv with
  | [] => []
  | x :: t =>
    if containsSeq item.data x.data then t else x :: removeFirstContaining t item

/-- One match of a loss pattern. -/
def itemLoseStep (ps : PlayersMap) (caps : Caps) : PlayersMap :=
  match capGet caps 1, capGet caps 2 with
  | some pn, some it0 =>
    let playerName := strLower (strTrim pn)
    let item := strTrim (filterItemChars (strLower (strTrim it0)))
    updateFirstByName ps playerName fun p =>
      { p with inventory := removeFirstContaining p.inventory item }
  | _, _ => ps

/-- `applyInventoryChanges(text, players)`. -/
def applyInventoryChanges (text : String) (ps : PlayersMap) : PlayersMap :=
  let ps := itemGainPatterns.foldl
    (fun ps r => (scanAll r text.data).foldl itemGainStep ps) ps
  itemLosePatterns.foldl
    (fun ps r => (scanAll r text.data).foldl itemLoseStep ps) ps

/-- `EffectResolver.apply(dmText, players, combat)`: the fixed pipeline
detect → enemy damage → player damage → healing → inventory → combat end. -/
def applyEffects (dmText : String) (ps : PlayersMap) (combat : CombatState) :
    PlayersMap × CombatState :=
  let c1 := detectCombatScenarios dmText ps combat
  let c2 := applyEnemyDamage dmText c1
  let ps1 := applyPlayerDamage dmText ps
  let ps2 := applyPlayerHealing dmText ps1
  let ps3 := applyInventoryChanges dmText ps2
  (ps3, checkCombatEnd c2)

/-! ## Narration client (`class DungeonMasterService`) -/

/-- The fixed fallback sentence `FALLBACK_DM_TEXT`. -/
def FALLBACK_DM_TEXT : String :=
  "Sorry, the AI service is unavailable. Please try again later."

/-- A narration outcome as consumed by the orchestrator. -/
structure NarrationResult where
  text : String
  thinking : String
  degraded : Bool
deriving Repr, DecidableEq

/-- One backend response: `ai.run` either resolves (with a possibly absent
`response` field) or rejects with an error whose rendered message is kept. -/
inductive AiOutcome where
  | ok (response : Option String)
  | err (message : String)

/-- `isRetryableError`: the rendered message matches
`/timeout|timed out|network|503|504/i`. -/
def isRetryableError (message : String) : Bool :=
  reTest retryableRe message.data

/-- `extractThinking(rawText)`: pull the first `<thinking>` block into a
separate field and strip every block from the narrative text. -/
def extractThinking (rawText : String) : String × String :=
  let thinking :=
    match firstMatch thinkingRe rawText.data with
    | some caps =>
      match capGet caps 1 with
      | some t => strTrim t
      | none => ""
    | none => ""
  (strTrim (String.mk (removeMatches thinkingRe rawText.data)), thinking)

/-- The retry loop of `narrate`, counting backend invocations.  `fuel` is
the number of attempts still allowed (`maxAttempts - attempt`), so the loop
guard `attempt < maxAttempts` is `fuel > 0`.  Returns the result together
with how many times the backend was invoked from this point on.  The
backoff sleep has no observable effect in this model. -/
def narrateGo (outcomes : Nat → AiOutcome) (maxAttempts : Nat) :
    Nat → Nat → NarrationResult × Nat
  | 0, _ => ({ text := FALLBACK_DM_TEXT, thinking := "", degraded := true }, 0)
  | fuel + 1, attempt =>
    match outcomes attempt with
    | .ok r =>
      let et := extractThinking (r.getD "The DM is silent.")
      ({ text := et.1, thinking := et.2, degraded := false }, 1)
    | .err m =>
      if !isRetryableError m || attempt == maxAttempts - 1 then
        ({ text := FALLBACK_DM_TEXT, thinking := "", degraded := true }, 1)
      else
        let rest := narrateGo outcomes maxAttempts fuel (attempt + 1)
        (rest.1, rest.2 + 1)

/-- `DungeonMasterService.narrate` for a service built with
`maxAttempts = Math.max(1, options.maxAttempts ?? 2)`; `outcomes n` is what
the backend does on attempt `n` (the backend is external). -/
def narrate (maxAttemptsOpt : Option Nat) (outcomes : Nat → AiOutcome) :
    NarrationResult × Nat :=
  let m := max 1 (maxAttemptsOpt.getD 2)
  narrateGo outcomes m m 0

/-! ## Session coordinator (`class SessionCoordinator`) -/

/-- `interface SessionSnapshot`, the sole unit of persistence. -/
structure SessionSnapshot where
  players : PlayersMap
  messages : List Message
  combat : CombatState
  lastActivity : Nat
  sessionId : Option String
deriving Repr, DecidableEq

/-- The coordinator's in-memory fields plus the last persisted snapshot
(`persisted = none` until the first `persist()` call). -/
structure SessionState where
  players : PlayersMap
  messages : List Message
  combat : CombatState
  lastActivity : Nat
  sessionId : Option String
  persisted : Option SessionSnapshot
deriving Repr, DecidableEq

/-- A freshly constructed coordinator (no stored snapshot to replay);
`t0` is the construction-time `Date.now()`. -/
def initState (t0 : Nat) : SessionState :=
  { players := [], messages := [], combat := defaultCombatState,
    lastActivity := t0, sessionId := none, persisted := none }

/-- `this.sessionId = this.sessionId ?? sessionId`. -/
def withSessionId (s : SessionState) (sessionId : String) : SessionState :=
  { s with sessionId := some (s.sessionId.getD sessionId) }

/-- `this.touch()`. -/
def touch (s : SessionState) (now : Nat) : SessionState :=
  { s with lastActivity := now }

/-- `this.persist()`: write the full snapshot of the in-memory fields. -/
def persist (s : SessionState) : SessionState :=
  let snap : SessionSnapshot :=
    { players := s.players, messages := s.messages, combat := s.combat,
      lastActivity := s.lastActivity, sessionId := s.sessionId }
  { s with persisted := some snap }

/-- `this.resetState()` (clears players, messages and combat, then touches;
the registry notification is external and best-effort). -/
def resetState (s : SessionState) (now : Nat) : SessionState :=
  touch { s with players := [], messages := [], combat := defaultCombatState } now

/-- `isEndCommand(action)`. -/
def isEndCommand (action : String) : Bool :=
  reTestFull endCommandRe (strTrim action).data

/-- `getRecentMessages()`: `messages.slice(-50)`. -/
def getRecentMessages (s : SessionState) : List Message :=
  s.messages.drop (s.messages.length - 50)

/-- The starter inventory seeded on first join. -/
def starterInventory : List String :=
  ["basic sword", "leather armor", "health potion"]

/-- `handleJoin` for a valid payload (invalid payloads are rejected before
any mutation; the registry add on first join is external and best-effort). -/
def handleJoin (s : SessionState) (sessionId playerId name : String) (now : Nat) :
    SessionState :=
  let s := withSessionId s sessionId
  let s :=
    match mapGet s.players playerId with
    | none =>
      { s with
        players := mapSet s.players playerId
          { id := playerId, name := name, hp := 20, inventory := starterInventory },
        messages := s.messages ++
          [{ actor := "DM",
             content := name ++ " enters the campaign with basic equipment.",
             ts := now }] }
    | some existing =>
      if existing.name != name then
        { s with
          players := mapSet s.players playerId { existing with name := name },
          messages := s.messages ++
            [{ actor := "DM",
               content := existing.name ++ " is now known as " ++ name ++ ".",
               ts := now }] }
      else s
  persist (touch s now)

/-- `handleState` (the query operation): touch, persist, and report. -/
def handleState (s : SessionState) (now : Nat) :
    SessionState × (List Player × List Message × CombatState) :=
  let s := persist (touch s now)
  (s, (mapValues s.players, getRecentMessages s, s.combat))

/-- `nextTurn()` (JS `%` on a zero-length order would be NaN; the branch is
unreachable because combat is only ever activated with a non-empty order). -/
def nextTurn (c : CombatState) : CombatState :=
  if !c.active then c
  else { c with currentTurnIndex := (c.currentTurnIndex + 1) % c.turnOrder.length }

/-- `getCurrentTurn()`: `turnOrder[currentTurnIndex] || null`, so an
out-of-range index or an empty-string entry yields `null`. -/
def getCurrentTurn (c : CombatState) : Option String :=
  if !c.active || c.turnOrder.isEmpty then none
  else
    match c.turnOrder.get? c.currentTurnIndex with
    | some nm => if nm == "" then none else some nm
    | none => none

/-- `isPlayerTurn(playerId)`. -/
def isPlayerTurn (s : SessionState) (playerId : String) : Bool :=
  match mapGet s.players playerId with
  | none => false
  | some p => getCurrentTurn s.combat == some p.name

/-- The JSON result of the act operation. -/
inductive ActOutcome where
  | errNotJoined
  | reset (result : String) (statePlayers : List Player) (stateCombat : CombatState)
  | narrated (result thinking : String) (degraded : Bool)
      (statePlayers : List Player) (stateCombat : CombatState)
deriving Repr, DecidableEq

/-- The `reset` flag of the response JSON. -/
def ActOutcome.resetFlag : ActOutcome → Bool
  | .reset _ _ _ => true
  | _ => false

/-- The closing narration of the end-command path. -/
def endGameText : String := "The game has ended. Thank you for playing!"

/-- `handleAction` for a valid payload.  The narration call is external:
`narr` is the `NarrationResult` the `DungeonMasterService` returns for this
request (the reject path never consults it, which models that no narration
call is made). -/
def handleAction (s : SessionState) (sessionId playerId playerAction : String)
    (narr : NarrationResult) (now : Nat) : SessionState × ActOutcome :=
  let s := withSessionId s sessionId
  match mapGet s.players playerId with
  | none => (s, .errNotJoined)
  | some player =>
    if isEndCommand playerAction then
      let s := { s with messages := s.messages ++
        [{ actor := player.name, content := playerAction, ts := now },
         { actor := "DM", content := endGameText, ts := now }] }
      let s := persist (resetState s now)
      (s, .reset endGameText [] s.combat)
    else
      let s :=
        if narr.degraded then s
        else
          let pc := applyEffects narr.text s.players s.combat
          let s := { s with players := pc.1, combat := pc.2 }
          if s.combat.active && isPlayerTurn s playerId then
            { s with combat := nextTurn s.combat }
          else s
      let s := { s with messages := s.messages ++
        [{ actor := player.name, content := playerAction, ts := now },
         { actor := "DM", content := narr.text, ts := now }] }
      let s := persist (touch s now)
      (s, .narrated narr.text narr.thinking narr.degraded (mapValues s.players) s.combat)

/-! ## Reachability and invariant statements -/

/-- States reachable from a fresh coordinator through the three session
operations.  The act step takes the narration outcome as an oracle (the
backend is external and may produce any text, degraded or not). -/
inductive Reachable : SessionState → Prop where
  | init (t0 : Nat) : Reachable (initState t0)
  | join {s : SessionState} (sid pid nm : String) (now : Nat) :
      Reachable s → Reachable (handleJoin s sid pid nm now)
  | act {s : SessionState} (sid pid actionText : String)
      (narr : NarrationResult) (now : Nat) :
      Reachable s → Reachable (handleAction s sid pid actionText narr now).1
  | query {s : SessionState} (now : Nat) :
      Reachable s → Reachable (handleState s now).1

/-- The spec's combat-state invariant (claim C9): when `active` is false,
turn order and enemy list are empty and the index is 0. -/
abbrev combatIdleInv (c : CombatState) : Prop :=
  c.active = false → c.turnOrder = [] ∧ c.enemies = [] ∧ c.currentTurnIndex = 0

/-- The implicit turn-tracking invariant (claim C10): while combat is
active, the turn order is non-empty and the index is in range. -/
abbrev combatTurnInv (c : CombatState) : Prop :=
  c.active = true →
    c.turnOrder ≠ [] ∧ c.currentTurnIndex < c.turnOrder.length

/-- The enemy a single detection match contributes, before deduplication:
cleaned name, stated hp if the `(N HP)` group participated, else default. -/
def enemyOfMatch? (caps : Caps) : Option Enemy :=
  match capGet caps 1 with
  | none => none
  | some raw0 =>
    some { name := cleanEnemyName (strTrim raw0),
           hp := enemyHpOfMatch caps (strTrim raw0) }

/-! ## Concrete instances used by the claims -/

/-- The C1 scenario roster: Thia at 20 hp (as in `test/index.spec.ts`). -/
def c1Players : PlayersMap :=
  [("p1", { id := "p1", name := "Thia", hp := 20, inventory := [] })]

/-- The C1 scenario combat: active, one Goblin at 12 hp. -/
def c1Combat : CombatState :=
  { active := true, turnOrder := [], currentTurnIndex := 0,
    enemies := [{ name := "Goblin", hp := 12 }] }

/-- The C1 scenario narration text. -/
def c1Text : String := "Thia takes 5 damage. The hero deals 7 damage to Goblin."

/-- A backend that rejects every attempt with a non-retryable message. -/
def c5Outcomes : Nat → AiOutcome := fun _ => AiOutcome.err "Invalid input"

/-- A backend that rejects every attempt with a retryable (504) message. -/
def c5RetryOutcomes : Nat → AiOutcome :=
  fun _ => AiOutcome.err "InferenceUpstreamError: 504 Gateway Time-out"

/-- A session whose only player joined with the empty string as name
(the join payload validator only requires `name` to be a string). -/
def c10Join : SessionState := handleJoin (initState 0) "s" "p1" "" 0

/-- The reachable state after that player acts and the narrator opens
combat: turn order is `["", "Goblin"]`. -/
def c10State : SessionState :=
  (handleAction c10Join "s" "p1" "hello"
    { text := "A goblin attacks!", thinking := "", degraded := false } 0).1

/-- A session whose only player is named Ann (used as a witness). -/
def annJoin : SessionState := handleJoin (initState 0) "s" "p1" "Ann" 0

/-- The reachable state after Ann acts and the narrator opens combat. -/
def annCombatState : SessionState :=
  (handleAction annJoin "s" "p1" "I look around"
    { text := "A goblin attacks!", thinking := "", degraded := false } 0).1

/-! ## Helper lemmas -/

/-- The hp-bound predicate of the C2 claim, for one player entry. -/
def hpBound (x : Int) : Prop := 0 ≤ x ∧ x ≤ 20

/-- A fold preserves any invariant its step preserves. -/
theorem foldlPreserve {α β : Type} (P : β → Prop) (f : β → α → β)
    (hf : ∀ b a, P b → P (f b a)) :
    ∀ (l : List α) (b : β), P b → P (l.foldl f b) := by
  intro l
  induction l with
  | nil => exact fun _ hb => hb
  | cons a t ih => exact fun b hb => ih _ (hf _ _ hb)

/-- Elements of `modifyAt l i f` come from `l`, possibly through `f`. -/
theorem mem_modifyAt {α : Type} (f : α → α) :
    ∀ (l : List α) (i : Nat), ∀ x ∈ modifyAt l i f, x ∈ l ∨ ∃ y ∈ l, x = f y := by
  intro l
  induction l with
  | nil => intro i x hx; simp [modifyAt] at hx
  | cons a t ih =>
    intro i x hx
    cases i with
    | zero =>
      simp only [modifyAt, List.mem_cons] at hx
      rcases hx with h | h
      · exact Or.inr ⟨a, by simp, h⟩
      · exact Or.inl (by simp [h])
    | succ n =>
      simp only [modifyAt, List.mem_cons] at hx
      rcases hx with h | h
      · exact Or.inl (by simp [h])
      · rcases ih n x h with h2 | ⟨y, hy, he⟩
        · exact Or.inl (by simp [h2])
        · exact Or.inr ⟨y, by simp [hy], he⟩

/-- Elements of `updateFirstByName ps nm f` come from `ps`, at most one of
them through `f`. -/
theorem mem_updateFirstByName (f : Player → Player) (nm : String) :
    ∀ (ps : PlayersMap), ∀ e ∈ updateFirstByName ps nm f,
      e ∈ ps ∨ ∃ q ∈ ps, e = (q.1, f q.2) := by
  intro ps
  induction ps with
  | nil => intro e he; simp [updateFirstByName] at he
  | cons a t ih =>
    obtain ⟨k, p⟩ := a
    intro e he
    simp only [updateFirstByName] at he
    by_cases h : strLower p.name == nm
    · rw [if_pos h] at he
      rcases List.mem_cons.mp he with he1 | he2
      · exact Or.inr ⟨(k, p), by simp, by simp [he1]⟩
      · exact Or.inl (List.mem_cons_of_mem _ he2)
    · rw [if_neg h] at he
      rcases List.mem_cons.mp he with he1 | he2
      · exact Or.inl (by simp [he1])
      · rcases ih e he2 with h2 | ⟨q, hq, he3⟩
        · exact Or.inl (List.mem_cons_of_mem _ h2)
        · exact Or.inr ⟨q, List.mem_cons_of_mem _ hq, he3⟩

/-- Pointwise hp facts survive `updateFirstByName` when `f` preserves them. -/
theorem updateFirstByName_hp_pred (Q : Int → Prop) (f : Player → Player)
    (hf : ∀ p : Player, Q p.hp → Q (f p).hp) (nm : String) (ps : PlayersMap)
    (h : ∀ e ∈ ps, Q e.2.hp) : ∀ e ∈ updateFirstByName ps nm f, Q e.2.hp := by
  intro e he
  rcases mem_updateFirstByName f nm ps e he with h1 | ⟨q, hq, he2⟩
  · exact h e h1
  · rw [he2]; exact hf _ (h q hq)

/-- The table of `getDefaultEnemyHp` only holds non-negative values. -/
theorem getDefaultEnemyHp_nonneg (nm : String) : 0 ≤ getDefaultEnemyHp nm := by
  unfold getDefaultEnemyHp
  have key : ∀ (l : List (String × Int)), (∀ e ∈ l, 0 ≤ e.2) → ∀ k : String,
      0 ≤ (match List.lookup k l with | some v => v | none => (15 : Int)) := by
    intro l hl
    induction l with
    | nil => intro k; simp [List.lookup]
    | cons a t ih =>
      obtain ⟨k2, v⟩ := a
      intro k
      by_cases hk : k == k2
      · simp only [List.lookup, hk]
        exact hl (k2, v) (by simp)
      · simp only [List.lookup, hk]
        exact ih (fun e he => hl e (by simp [he])) k
  exact key hpMap (by decide) _

/-- Newly detected enemies carry a non-negative hp. -/
theorem enemyHpOfMatch_nonneg (caps : Caps) (nm : String) :
    0 ≤ enemyHpOfMatch caps nm := by
  unfold enemyHpOfMatch
  split
  · exact Int.natCast_nonneg _
  · exact getDefaultEnemyHp_nonneg _

/-- The enemy-collection step keeps every collected hp non-negative. -/
theorem addEnemyFromMatch_nonneg (st : List String × List Enemy) (caps : Caps)
    (h : ∀ e ∈ st.2, 0 ≤ e.hp) : ∀ e ∈ (addEnemyFromMatch st caps).2, 0 ≤ e.hp := by
  unfold addEnemyFromMatch
  split
  · exact h
  · dsimp only
    split
    · exact h
    · intro e he
      simp only [List.mem_append, List.mem_singleton] at he
      rcases he with he | he
      · exact h e he
      · rw [he]; exact enemyHpOfMatch_nonneg _ _

/-- Every enemy produced by combat detection has a non-negative hp. -/
theorem scanEnemies_nonneg (text : String) :
    ∀ e ∈ scanEnemies text, 0 ≤ e.hp := by
  unfold scanEnemies
  exact foldlPreserve (fun st : List String × List Enemy => ∀ e ∈ st.2, 0 ≤ e.hp)
    addEnemyFromMatch (fun st caps h => addEnemyFromMatch_nonneg st caps h)
    (enemyMatches text) ([], []) (by simp)

/-- `detectCombatScenarios` keeps every enemy hp non-negative. -/
theorem detect_enemies_nonneg (text : String) (ps : PlayersMap) (c : CombatState)
    (h : ∀ e ∈ c.enemies, 0 ≤ e.hp) :
    ∀ e ∈ (detectCombatScenarios text ps c).enemies, 0 ≤ e.hp := by
  unfold detectCombatScenarios
  split
  · exact h
  · split
    · exact h
    · dsimp only
      split
      · exact h
      · exact fun e he => scanEnemies_nonneg text e he

/-- The enemy-damage hit keeps every hp non-negative (clamping at 0). -/
theorem enemyDamageHit_nonneg (nm : String) (dmg : Nat) (es : List Enemy)
    (h : ∀ e ∈ es, 0 ≤ e.hp) : ∀ e ∈ enemyDamageHit es nm dmg, 0 ≤ e.hp := by
  unfold enemyDamageHit
  split
  · split
    · intro e he
      rcases mem_modifyAt _ es _ e he with h1 | ⟨y, _, he2⟩
      · exact h e h1
      · rw [he2]; exact le_max_left _ _
    · exact h
  · exact h

/-- `applyEnemyDamage` keeps every enemy hp non-negative. -/
theorem applyEnemyDamage_nonneg (text : String) (c : CombatState)
    (h : ∀ e ∈ c.enemies, 0 ≤ e.hp) :
    ∀ e ∈ (applyEnemyDamage text c).enemies, 0 ≤ e.hp := by
  unfold applyEnemyDamage
  split
  · exact h
  · refine foldlPreserve (fun es : List Enemy => ∀ e ∈ es, 0 ≤ e.hp) _ ?_ _ _ h
    intro es pat hes
    refine foldlPreserve (fun es : List Enemy => ∀ e ∈ es, 0 ≤ e.hp) _ ?_ _ _ hes
    intro es2 caps hes2
    split
    · exact enemyDamageHit_nonneg _ _ _ hes2
    · exact hes2

/-- `checkCombatEnd` keeps every enemy hp non-negative. -/
theorem checkCombatEnd_nonneg (c : CombatState) (h : ∀ e ∈ c.enemies, 0 ≤ e.hp) :
    ∀ e ∈ (checkCombatEnd c).enemies, 0 ≤ e.hp := by
  unfold checkCombatEnd
  split
  · exact h
  · split
    · simp
    · exact h

/-- `applyPlayerDamage` keeps every player hp within the claimed bounds:
damage clamps at 0 and never raises hp. -/
theorem applyPlayerDamage_bounds (text : String) (ps : PlayersMap)
    (h : ∀ e ∈ ps, hpBound e.2.hp) :
    ∀ e ∈ applyPlayerDamage text ps, hpBound e.2.hp := by
  unfold applyPlayerDamage
  refine foldlPreserve (fun ps : PlayersMap => ∀ e ∈ ps, hpBound e.2.hp) _ ?_ _ _ h
  intro b pat hb
  refine foldlPreserve (fun ps : PlayersMap => ∀ e ∈ ps, hpBound e.2.hp) _ ?_ _ _ hb
  intro b2 caps hb2
  split
  · split
    · refine updateFirstByName_hp_pred hpBound _ ?_ _ _ hb2
      intro p hp
      obtain ⟨h0, h20⟩ := hp
      exact ⟨le_max_left _ _, max_le (by norm_num) (by omega)⟩
    · exact hb2
  · exact hb2

/-- `applyPlayerHealing` keeps every player hp within the claimed bounds:
healing caps at the ceiling 20 and never lowers hp below 0. -/
theorem applyPlayerHealing_bounds (text : String) (ps : PlayersMap)
    (h : ∀ e ∈ ps, hpBound e.2.hp) :
    ∀ e ∈ applyPlayerHealing text ps, hpBound e.2.hp := by
  unfold applyPlayerHealing
  refine foldlPreserve (fun ps : PlayersMap => ∀ e ∈ ps, hpBound e.2.hp) _ ?_ _ _ h
  intro b pat hb
  refine foldlPreserve (fun ps : PlayersMap => ∀ e ∈ ps, hpBound e.2.hp) _ ?_ _ _ hb
  intro b2 caps hb2
  split
  · split
    · refine updateFirstByName_hp_pred hpBound _ ?_ _ _ hb2
      intro p hp
      obtain ⟨h0, h20⟩ := hp
      exact ⟨le_min (by norm_num) (by omega), min_le_left _ _⟩
    · exact hb2
  · exact hb2

/-- The item-gain step never changes any hp value. -/
theorem itemGainStep_hp (Q : Int → Prop) (ps : PlayersMap) (caps : Caps)
    (h : ∀ e ∈ ps, Q e.2.hp) : ∀ e ∈ itemGainStep ps caps, Q e.2.hp := by
  unfold itemGainStep
  split
  · dsimp only
    split
    · exact h
    · refine updateFirstByName_hp_pred Q _ ?_ _ _ h
      intro p hp
      dsimp only
      split <;> exact hp
  · exact h

/-- The item-loss step never changes any hp value. -/
theorem itemLoseStep_hp (Q : Int → Prop) (ps : PlayersMap) (caps : Caps)
    (h : ∀ e ∈ ps, Q e.2.hp) : ∀ e ∈ itemLoseStep ps caps, Q e.2.hp := by
  unfold itemLoseStep
  split
  · dsimp only
    refine updateFirstByName_hp_pred Q _ ?_ _ _ h
    intro p hp
    exact hp
  · exact h

/-- `applyInventoryChanges` never changes any hp value. -/
theorem applyInventoryChanges_hp (Q : Int → Prop) (text : String) (ps : PlayersMap)
    (h : ∀ e ∈ ps, Q e.2.hp) : ∀ e ∈ applyInventoryChanges text ps, Q e.2.hp := by
  unfold applyInventoryChanges
  refine foldlPreserve (fun ps : PlayersMap => ∀ e ∈ ps, Q e.2.hp) _ ?_ _ _ ?_
  · intro b r hb
    exact foldlPreserve (fun ps : PlayersMap => ∀ e ∈ ps, Q e.2.hp) _
      (fun b2 caps hb2 => itemLoseStep_hp Q b2 caps hb2) _ _ hb
  · refine foldlPreserve (fun ps : PlayersMap => ∀ e ∈ ps, Q e.2.hp) _ ?_ _ _ h
    intro b r hb
    exact foldlPreserve (fun ps : PlayersMap => ∀ e ∈ ps, Q e.2.hp) _
      (fun b2 caps hb2 => itemGainStep_hp Q b2 caps hb2) _ _ hb

/-- C2: after effect resolution every player hp stays an integer in
[0, 20] (damage clamps at 0, healing caps at the ceiling 20 regardless of
the healing amount) and every enemy hp stays non-negative, given the same
bounds beforehand. -/
theorem C2_health_bounds (text : String) (ps : PlayersMap) (c : CombatState)
    (hps : ∀ e ∈ ps, 0 ≤ e.2.hp ∧ e.2.hp ≤ 20)
    (hes : ∀ e ∈ c.enemies, 0 ≤ e.hp) :
    (∀ e ∈ (applyEffects text ps c).1, 0 ≤ e.2.hp ∧ e.2.hp ≤ 20) ∧
    (∀ e ∈ (applyEffects text ps c).2.enemies, 0 ≤ e.hp) := by
  unfold applyEffects
  constructor
  · exact applyInventoryChanges_hp hpBound _ _
      (applyPlayerHealing_bounds _ _ (applyPlayerDamage_bounds _ _ hps))
  · exact checkCombatEnd_nonneg _
      (applyEnemyDamage_nonneg _ _ (detect_enemies_nonneg _ _ _ hes))

/-- C2 witness: the bounds hold concretely for the Thia/Goblin scenario. -/
theorem C2_health_bounds_witness :
    (∀ e ∈ c1Players, 0 ≤ e.2.hp ∧ e.2.hp ≤ 20) ∧
    (∀ e ∈ c1Combat.enemies, 0 ≤ e.hp) ∧
    (∀ e ∈ (applyEffects c1Text c1Players c1Combat).1, 0 ≤ e.2.hp ∧ e.2.hp ≤ 20) ∧
    (∀ e ∈ (applyEffects c1Text c1Players c1Combat).2.enemies, 0 ≤ e.hp) :=
  ⟨by decide, by decide,
   (C2_health_bounds c1Text c1Players c1Combat (by decide) (by decide)).1,
   (C2_health_bounds c1Text c1Players c1Combat (by decide) (by decide)).2⟩

/-- C1: evaluating the resolver on the claimed scenario.  The spec (and the
repo's own test `test/index.spec.ts`) expect Thia at 15 and Goblin at 5;
the code leaves Thia at 15 but drives Goblin to 0, because the phrase
"deals 7 damage to Goblin" is matched by both the `deals ... damage to`
pattern and the `... damage to` pattern, so the 7 damage is applied twice;
`checkCombatEnd` then ends combat and clears the enemy list. -/
theorem C1_scenario_eval :
    (applyEffects c1Text c1Players c1Combat).1 =
      [("p1", { id := "p1", name := "Thia", hp := 15, inventory := [] })] ∧
    (applyEnemyDamage c1Text c1Combat).enemies = [{ name := "Goblin", hp := 0 }] ∧
    (applyEffects c1Text c1Players c1Combat).2 = defaultCombatState := by
  refine ⟨by decide, by decide, by decide⟩

/-- C8: an act from a player id that never joined is rejected as a client
error; the player map, message log, combat state and persisted snapshot are
untouched, and the result does not depend on the narration oracle at all
(no narration call is made on this path). -/
theorem C8_unjoined_rejected (s : SessionState) (sid pid actionText : String)
    (narr : NarrationResult) (now : Nat)
    (h : mapGet s.players pid = none) :
    (handleAction s sid pid actionText narr now).2 = ActOutcome.errNotJoined ∧
    (handleAction s sid pid actionText narr now).1.players = s.players ∧
    (handleAction s sid pid actionText narr now).1.messages = s.messages ∧
    (handleAction s sid pid actionText narr now).1.combat = s.combat ∧
    (handleAction s sid pid actionText narr now).1.persisted = s.persisted ∧
    (∀ narr2 : NarrationResult,
      handleAction s sid pid actionText narr2 now =
        handleAction s sid pid actionText narr now) := by
  have hm : mapGet (withSessionId s sid).players pid = none := h
  simp only [handleAction, hm]
  simp [withSessionId]

/-- C8 witness: concrete instantiation on a session where `p2` never
joined (`annJoin` only contains `p1`). -/
theorem C8_unjoined_rejected_witness :
    (handleAction annJoin "s" "p2" "I attack"
        { text := "x", thinking := "", degraded := false } 7).2 =
      ActOutcome.errNotJoined ∧
    (handleAction annJoin "s" "p2" "I attack"
        { text := "x", thinking := "", degraded := false } 7).1.players =
      annJoin.players ∧
    (handleAction annJoin "s" "p2" "I attack"
        { text := "x", thinking := "", degraded := false } 7).1.messages =
      annJoin.messages ∧
    (handleAction annJoin "s" "p2" "I attack"
        { text := "x", thinking := "", degraded := false } 7).1.combat =
      annJoin.combat ∧
    (handleAction annJoin "s" "p2" "I attack"
        { text := "x", thinking := "", degraded := false } 7).1.persisted =
      annJoin.persisted ∧
    (∀ narr2 : NarrationResult,
      handleAction annJoin "s" "p2" "I attack" narr2 7 =
        handleAction annJoin "s" "p2" "I attack"
          { text := "x", thinking := "", degraded := false } 7) :=
  C8_unjoined_rejected annJoin "s" "p2" "I attack"
    { text := "x", thinking := "", degraded := false } 7 (by decide)

/-- C3: when the narration result is degraded, the act operation leaves the
player map (hence every health and inventory) and the combat state (hence
the enemy list) exactly as they were, whatever the fallback text contains. -/
theorem C3_degraded_frame (s : SessionState) (sid pid actionText : String)
    (narr : NarrationResult) (now : Nat) (p : Player)
    (hjoined : mapGet s.players pid = some p)
    (hnotend : isEndCommand actionText = false)
    (hdeg : narr.degraded = true) :
    (handleAction s sid pid actionText narr now).1.players = s.players ∧
    (handleAction s sid pid actionText narr now).1.combat = s.combat := by
  have hm : mapGet (withSessionId s sid).players pid = some p := hjoined
  simp only [handleAction, hm, hnotend, hdeg]
  exact ⟨rfl, rfl⟩

/-- C3 witness: a degraded result whose fallback text is full of
damage-like phrasing still changes nothing. -/
theorem C3_degraded_frame_witness :
    (handleAction annCombatState "s" "p1" "I strike"
        { text := "Ann takes 99 damage. 5 damage to Goblin.", thinking := "",
          degraded := true } 9).1.players = annCombatState.players ∧
    (handleAction annCombatState "s" "p1" "I strike"
        { text := "Ann takes 99 damage. 5 damage to Goblin.", thinking := "",
          degraded := true } 9).1.combat = annCombatState.combat :=
  C3_degraded_frame annCombatState "s" "p1" "I strike"
    { text := "Ann takes 99 damage. 5 damage to Goblin.", thinking := "",
      degraded := true } 9
    { id := "p1", name := "Ann", hp := 20, inventory := starterInventory }
    (by decide) (by decide) rfl

/-- C4: an end-of-session command from a joined player resets everything:
the response reports `reset = true` with an empty roster and the inactive
empty combat state, and the session state (players, messages, combat, and
the persisted snapshot) is left empty, regardless of the prior state. -/
theorem C4_end_command (s : SessionState) (sid pid actionText : String)
    (narr : NarrationResult) (now : Nat) (p : Player)
    (hjoined : mapGet s.players pid = some p)
    (hend : isEndCommand actionText = true) :
    (handleAction s sid pid actionText narr now).2 =
      ActOutcome.reset endGameText [] defaultCombatState ∧
    (handleAction s sid pid actionText narr now).2.resetFlag = true ∧
    (handleAction s sid pid actionText narr now).1.players = [] ∧
    (handleAction s sid pid actionText narr now).1.messages = [] ∧
    (handleAction s sid pid actionText narr now).1.combat = defaultCombatState ∧
    (handleAction s sid pid actionText narr now).1.persisted =
      some { players := [], messages := [], combat := defaultCombatState,
             lastActivity := now, sessionId := some (s.sessionId.getD sid) } := by
  have hm : mapGet (withSessionId s sid).players pid = some p := hjoined
  simp only [handleAction, hm, hend]
  exact ⟨rfl, rfl, rfl, rfl, rfl, rfl⟩

/-- C4 witness: "End Game" from the joined player wipes the combat-active
session. -/
theorem C4_end_command_witness :
    (handleAction annCombatState "s" "p1" "End Game"
        { text := "x", thinking := "", degraded := false } 11).2 =
      ActOutcome.reset endGameText [] defaultCombatState ∧
    (handleAction annCombatState "s" "p1" "End Game"
        { text := "x", thinking := "", degraded := false } 11).2.resetFlag = true ∧
    (handleAction annCombatState "s" "p1" "End Game"
        { text := "x", thinking := "", degraded := false } 11).1.players = [] ∧
    (handleAction annCombatState "s" "p1" "End Game"
        { text := "x", thinking := "", degraded := false } 11).1.messages = [] ∧
    (handleAction annCombatState "s" "p1" "End Game"
        { text := "x", thinking := "", degraded := false } 11).1.combat =
      defaultCombatState ∧
    (handleAction annCombatState "s" "p1" "End Game"
        { text := "x", thinking := "", degraded := false } 11).1.persisted =
      some { players := [], messages := [], combat := defaultCombatState,
             lastActivity := 11,
             sessionId := some (annCombatState.sessionId.getD "s") } :=
  C4_end_command annCombatState "s" "p1" "End Game"
    { text := "x", thinking := "", degraded := false } 11
    { id := "p1", name := "Ann", hp := 20, inventory := starterInventory }
    (by decide) (by decide)

/-- `mapSet` followed by `mapGet` at the same key returns the new value. -/
theorem mapGet_mapSet_self (m : PlayersMap) (k : String) (v : Player) :
    mapGet (mapSet m k v) k = some v := by
  induction m with
  | nil => simp [mapGet, mapSet]
  | cons a t ih =>
    obtain ⟨k2, v2⟩ := a
    by_cases h : k2 == k
    · simp [mapGet, mapSet, h]
    · simp [mapGet, mapSet, h, ih]

/-- Setting an absent key appends the new entry at the end. -/
theorem mapSet_absent (m : PlayersMap) (k : String) (v : Player)
    (h : mapGet m k = none) : mapSet m k v = m ++ [(k, v)] := by
  induction m with
  | nil => simp [mapSet]
  | cons a t ih =>
    obtain ⟨k2, v2⟩ := a
    by_cases hk : k2 == k
    · simp [mapGet, hk] at h
    · simp only [mapGet, hk] at h
      simp [mapSet, hk, ih h]

/-- A key that `mapGet` misses occurs zero times. -/
theorem countP_eq_zero_of_mapGet_none (m : PlayersMap) (k : String)
    (h : mapGet m k = none) : m.countP (fun e => e.1 == k) = 0 := by
  induction m with
  | nil => simp
  | cons a t ih =>
    obtain ⟨k2, v⟩ := a
    by_cases hk : k2 == k
    · simp [mapGet, hk] at h
    · simp only [mapGet, hk] at h
      simp [List.countP_cons, hk, ih h]

/-- C6: joining the same player id with the same name twice changes nothing
over joining once (same roster, same message log); and when the id was new,
the single join yields exactly one roster entry for that id and appends
exactly one arrival message. -/
theorem C6_join_idempotent (s : SessionState) (sid pid nm : String) (t1 t2 : Nat) :
    (handleJoin (handleJoin s sid pid nm t1) sid pid nm t2).players =
      (handleJoin s sid pid nm t1).players ∧
    (handleJoin (handleJoin s sid pid nm t1) sid pid nm t2).messages =
      (handleJoin s sid pid nm t1).messages ∧
    (mapGet s.players pid = none →
      ((handleJoin s sid pid nm t1).players.countP (fun e => e.1 == pid) = 1 ∧
       (handleJoin s sid pid nm t1).messages = s.messages ++
         [{ actor := "DM",
            content := nm ++ " enters the campaign with basic equipment.",
            ts := t1 }])) := by
  cases hm : mapGet s.players pid with
  | none =>
    have hset := mapGet_mapSet_self s.players pid
      { id := pid, name := nm, hp := 20, inventory := starterInventory }
    refine ⟨?_, ?_, ?_⟩
    · simp [handleJoin, withSessionId, touch, persist, hm, hset]
    · simp [handleJoin, withSessionId, touch, persist, hm, hset]
    · intro _
      refine ⟨?_, ?_⟩
      · simp only [handleJoin, withSessionId, touch, persist, hm]
        rw [mapSet_absent _ _ _ hm]
        simp [List.countP_append, List.countP_cons,
          countP_eq_zero_of_mapGet_none s.players pid hm]
      · simp [handleJoin, withSessionId, touch, persist, hm]
  | some p =>
    by_cases hn : p.name = nm
    · refine ⟨?_, ?_, ?_⟩
      · simp [handleJoin, withSessionId, touch, persist, hm, hn]
      · simp [handleJoin, withSessionId, touch, persist, hm, hn]
      · intro hc; cases hc
    · have hset := mapGet_mapSet_self s.players pid { p with name := nm }
      refine ⟨?_, ?_, ?_⟩
      · simp [handleJoin, withSessionId, touch, persist, hm, hn, hset]
      · simp [handleJoin, withSessionId, touch, persist, hm, hn, hset]
      · intro hc; cases hc

/-- C6 witness: concrete double join of a fresh player. -/
theorem C6_join_idempotent_witness :
    (handleJoin (handleJoin (initState 0) "s" "p1" "Ann" 1) "s" "p1" "Ann" 2).players =
      (handleJoin (initState 0) "s" "p1" "Ann" 1).players ∧
    (handleJoin (handleJoin (initState 0) "s" "p1" "Ann" 1) "s" "p1" "Ann" 2).messages =
      (handleJoin (initState 0) "s" "p1" "Ann" 1).messages ∧
    (mapGet (initState 0).players "p1" = none →
      ((handleJoin (initState 0) "s" "p1" "Ann" 1).players.countP
          (fun e => e.1 == "p1") = 1 ∧
       (handleJoin (initState 0) "s" "p1" "Ann" 1).messages =
         (initState 0).messages ++
           [{ actor := "DM",
              content := "Ann" ++ " enters the campaign with basic equipment.",
              ts := 1 }])) :=
  C6_join_idempotent (initState 0) "s" "p1" "Ann" 1 2

/-- C5 (amended): under a 2-attempt policy with the backend rejecting on
every attempt, `narrate` always returns the fixed fallback text with
`degraded = true`; the backend is invoked exactly 2 times when the first
rejection is retryable (its message matches the transient signature), and
exactly once when it is not, because a non-retryable error short-circuits
the retry loop. -/
theorem C5_all_reject (outcomes : Nat → AiOutcome) (m0 m1 : String)
    (h0 : outcomes 0 = AiOutcome.err m0) (h1 : outcomes 1 = AiOutcome.err m1) :
    (narrate (some 2) outcomes).1 =
      { text := FALLBACK_DM_TEXT, thinking := "", degraded := true } ∧
    (narrate (some 2) outcomes).2 = (if isRetryableError m0 then 2 else 1) := by
  by_cases hr : isRetryableError m0
  · simp [narrate, narrateGo, h0, h1, hr]
  · simp [narrate, narrateGo, h0, h1, hr]

/-- C5 witness: with both rejections carrying a 504 message (retryable, as
in the repo's own test), the backend runs exactly twice and the caller gets
the fallback, degraded. -/
theorem C5_all_reject_witness :
    (narrate (some 2) c5RetryOutcomes).1 =
      { text := FALLBACK_DM_TEXT, thinking := "", degraded := true } ∧
    (narrate (some 2) c5RetryOutcomes).2 =
      (if isRetryableError "InferenceUpstreamError: 504 Gateway Time-out"
       then 2 else 1) :=
  C5_all_reject c5RetryOutcomes _ _ rfl rfl

/-- C5 counterexample to the claim as stated: a backend that rejects every
attempt with a non-retryable message ("Invalid input") is invoked exactly
once, not twice, under the 2-attempt policy (the fallback/degraded part of
the claim still holds). -/
theorem C5_counterexample :
    (narrate (some 2) c5Outcomes).1 =
      { text := FALLBACK_DM_TEXT, thinking := "", degraded := true } ∧
    (narrate (some 2) c5Outcomes).2 = 1 ∧
    ¬(narrate (some 2) c5Outcomes).2 = 2 := by
  refine ⟨by decide, by decide, by decide⟩

/-- One collection step only ever adds the enemy its match denotes. -/
theorem addEnemyFromMatch_mem (st : List String × List Enemy) (caps : Caps) :
    ∀ e ∈ (addEnemyFromMatch st caps).2, e ∈ st.2 ∨ enemyOfMatch? caps = some e := by
  unfold addEnemyFromMatch enemyOfMatch?
  split
  · exact fun e he => Or.inl he
  · dsimp only
    split
    · exact fun e he => Or.inl he
    · intro e he
      simp only [List.mem_append, List.mem_singleton] at he
      rcases he with he | he
      · exact Or.inl he
      · exact Or.inr (by rw [he])

/-- Every enemy the collection fold produces comes from one of the matches. -/
theorem foldl_addEnemy_mem (l : List Caps) :
    ∀ (st : List String × List Enemy), ∀ e ∈ (l.foldl addEnemyFromMatch st).2,
      e ∈ st.2 ∨ ∃ caps ∈ l, enemyOfMatch? caps = some e := by
  induction l with
  | nil => exact fun st e he => Or.inl he
  | cons c t ih =>
    intro st e he
    rcases ih (addEnemyFromMatch st c) e he with h | ⟨caps, hc, he2⟩
    · rcases addEnemyFromMatch_mem st c e h with h2 | h2
      · exact Or.inl h2
      · exact Or.inr ⟨c, by simp, h2⟩
    · exact Or.inr ⟨caps, by simp [hc], he2⟩

/-- Every detected enemy is the cleaned-name/stated-or-default-hp enemy of
one of the three enemy patterns' matches. -/
theorem scanEnemies_provenance (text : String) :
    ∀ e ∈ scanEnemies text, ∃ caps ∈ enemyMatches text, enemyOfMatch? caps = some e := by
  intro e he
  unfold scanEnemies at he
  rcases foldl_addEnemy_mem (enemyMatches text) ([], []) e he with h | h
  · simp at h
  · exact h

/-- C7: with combat inactive, a trigger phrase and a non-empty detected
enemy list, detection activates combat with exactly those enemies, turn
order all current player names then the enemy names, index 0; each detected
enemy's hp is its stated `(N HP)` value when present, else the per-creature
table default, else the global default 15; and whenever combat is active
with every enemy at 0 hp, `checkCombatEnd` deactivates combat and empties
the enemy list and turn order. -/
theorem C7_combat_lifecycle (text : String) (ps : PlayersMap) (c : CombatState)
    (es : List Enemy)
    (hia : c.active = false)
    (htr : hasCombatTrigger text = true)
    (hse : scanEnemies text = es)
    (hne : es ≠ []) :
    detectCombatScenarios text ps c =
      { active := true, turnOrder := playerNames ps ++ es.map (·.name),
        currentTurnIndex := 0, enemies := es } ∧
    (∀ e ∈ es, ∃ caps ∈ enemyMatches text, enemyOfMatch? caps = some e) ∧
    (∀ (caps : Caps) (raw : String), capGet caps 1 = some raw →
      enemyOfMatch? caps =
        some { name := cleanEnemyName (strTrim raw),
               hp := enemyHpOfMatch caps (strTrim raw) }) ∧
    (∀ (caps : Caps) (nm d : String), capGet caps 2 = some d →
      enemyHpOfMatch caps nm = (parseDigits d : Int)) ∧
    (∀ (caps : Caps) (nm : String), capGet caps 2 = none →
      enemyHpOfMatch caps nm = getDefaultEnemyHp nm) ∧
    (∀ nm : String, List.lookup (strLower nm) hpMap = none →
      getDefaultEnemyHp nm = 15) ∧
    (∀ c2 : CombatState, c2.active = true → (∀ e ∈ c2.enemies, e.hp = 0) →
      checkCombatEnd c2 = defaultCombatState) := by
  have hemp : (scanEnemies text).isEmpty = false := by
    rw [hse]
    cases es with
    | nil => exact absurd rfl hne
    | cons a t => rfl
  refine ⟨?_, ?_, ?_, ?_, ?_, ?_, ?_⟩
  · simp only [detectCombatScenarios, hia, htr, hemp, hse]
    simp [hse]
    intro h
    exact absurd h hne
  · intro e he
    rw [← hse] at he
    exact scanEnemies_provenance text e he
  · intro caps raw h
    simp [enemyOfMatch?, h]
  · intro caps nm d h
    simp [enemyHpOfMatch, h]
  · intro caps nm h
    simp [enemyHpOfMatch, h]
  · intro nm h
    simp [getDefaultEnemyHp, h]
  · intro c2 ha hz
    have hf : (c2.enemies.filter (fun e => decide (0 < e.hp))).isEmpty = true := by
      have : c2.enemies.filter (fun e => decide (0 < e.hp)) = [] := by
        rw [List.filter_eq_nil_iff]
        intro a ha2
        simp [hz a ha2]
      simp [this]
    simp [checkCombatEnd, ha, hf, defaultCombatState]

/-- C7 witness: "A goblin attacks!" on a one-player roster. -/
theorem C7_combat_lifecycle_witness :
    detectCombatScenarios "A goblin attacks!" c1Players defaultCombatState =
      { active := true,
        turnOrder := playerNames c1Players ++
          ([{ name := "Goblin", hp := 7 }] : List Enemy).map (·.name),
        currentTurnIndex := 0, enemies := [{ name := "Goblin", hp := 7 }] } ∧
    (∀ e ∈ ([{ name := "Goblin", hp := 7 }] : List Enemy),
      ∃ caps ∈ enemyMatches "A goblin attacks!", enemyOfMatch? caps = some e) ∧
    (∀ (caps : Caps) (raw : String), capGet caps 1 = some raw →
      enemyOfMatch? caps =
        some { name := cleanEnemyName (strTrim raw),
               hp := enemyHpOfMatch caps (strTrim raw) }) ∧
    (∀ (caps : Caps) (nm d : String), capGet caps 2 = some d →
      enemyHpOfMatch caps nm = (parseDigits d : Int)) ∧
    (∀ (caps : Caps) (nm : String), capGet caps 2 = none →
      enemyHpOfMatch caps nm = getDefaultEnemyHp nm) ∧
    (∀ nm : String, List.lookup (strLower nm) hpMap = none →
      getDefaultEnemyHp nm = 15) ∧
    (∀ c2 : CombatState, c2.active = true → (∀ e ∈ c2.enemies, e.hp = 0) →
      checkCombatEnd c2 = defaultCombatState) :=
  C7_combat_lifecycle "A goblin attacks!" c1Players defaultCombatState
    [{ name := "Goblin", hp := 7 }] (by decide) (by decide) (by decide) (by decide)

/-- Join never touches the combat state. -/
theorem handleJoin_combat (s : SessionState) (sid pid nm : String) (now : Nat) :
    (handleJoin s sid pid nm now).combat = s.combat := by
  simp only [handleJoin, withSessionId, touch, persist]
  split
  · rfl
  · split <;> rfl

/-- The query operation never touches the combat state. -/
theorem handleState_combat (s : SessionState) (now : Nat) :
    (handleState s now).1.combat = s.combat := rfl

/-- `applyEnemyDamage` only rewrites enemy hp values: the flag, the turn
order and the index are untouched. -/
theorem applyEnemyDamage_shape (text : String) (c : CombatState) :
    (applyEnemyDamage text c).active = c.active ∧
    (applyEnemyDamage text c).turnOrder = c.turnOrder ∧
    (applyEnemyDamage text c).currentTurnIndex = c.currentTurnIndex := by
  unfold applyEnemyDamage
  split
  · exact ⟨rfl, rfl, rfl⟩
  · exact ⟨rfl, rfl, rfl⟩

/-- The combat field after an act is one of: unchanged, the reset default,
the effect-resolution output, or that output with the turn advanced. -/
theorem handleAction_combat_cases (s : SessionState) (sid pid a : String)
    (narr : NarrationResult) (now : Nat) :
    (handleAction s sid pid a narr now).1.combat = s.combat ∨
    (handleAction s sid pid a narr now).1.combat = defaultCombatState ∨
    (handleAction s sid pid a narr now).1.combat =
      (applyEffects narr.text s.players s.combat).2 ∨
    (handleAction s sid pid a narr now).1.combat =
      nextTurn (applyEffects narr.text s.players s.combat).2 := by
  simp only [handleAction]
  cases hm : mapGet (withSessionId s sid).players pid with
  | none =>
    simp only [hm]
    exact Or.inl rfl
  | some player =>
    simp only [hm]
    split
    · exact Or.inr (Or.inl rfl)
    · dsimp only
      split
      · exact Or.inl rfl
      · split
        · exact Or.inr (Or.inr (Or.inr rfl))
        · exact Or.inr (Or.inr (Or.inl rfl))

/-- Detection preserves the idle invariant. -/
theorem detect_idle (text : String) (ps : PlayersMap) (c : CombatState)
    (h : combatIdleInv c) : combatIdleInv (detectCombatScenarios text ps c) := by
  unfold detectCombatScenarios
  split
  · exact h
  · split
    · exact h
    · dsimp only
      split
      · exact h
      · intro ha; simp at ha

/-- Enemy damage preserves the idle invariant. -/
theorem applyEnemyDamage_idle (text : String) (c : CombatState)
    (h : combatIdleInv c) : combatIdleInv (applyEnemyDamage text c) := by
  unfold applyEnemyDamage
  split
  · exact h
  · rename_i hg
    intro ha
    simp only [Bool.not_eq_true] at ha
    simp at hg
    rw [hg.1] at ha
    cases ha

/-- Combat end preserves the idle invariant. -/
theorem checkCombatEnd_idle (c : CombatState) (h : combatIdleInv c) :
    combatIdleInv (checkCombatEnd c) := by
  unfold checkCombatEnd
  split
  · exact h
  · split
    · exact fun _ => ⟨rfl, rfl, rfl⟩
    · exact h

/-- Turn advance preserves the idle invariant. -/
theorem nextTurn_idle (c : CombatState) (h : combatIdleInv c) :
    combatIdleInv (nextTurn c) := by
  unfold nextTurn
  split
  · exact h
  · rename_i hact
    intro ha
    simp at hact
    simp only [] at ha
    rw [hact] at ha
    cases ha

/-- Effect resolution preserves the idle invariant. -/
theorem applyEffects_idle (text : String) (ps : PlayersMap) (c : CombatState)
    (h : combatIdleInv c) : combatIdleInv (applyEffects text ps c).2 := by
  unfold applyEffects
  exact checkCombatEnd_idle _ (applyEnemyDamage_idle _ _ (detect_idle _ _ _ h))

/-- The act operation preserves the idle invariant. -/
theorem handleAction_idle (s : SessionState) (sid pid a : String)
    (narr : NarrationResult) (now : Nat) (h : combatIdleInv s.combat) :
    combatIdleInv (handleAction s sid pid a narr now).1.combat := by
  rcases handleAction_combat_cases s sid pid a narr now with hc | hc | hc | hc <;> rw [hc]
  · exact h
  · exact fun _ => ⟨rfl, rfl, rfl⟩
  · exact applyEffects_idle _ _ _ h
  · exact nextTurn_idle _ (applyEffects_idle _ _ _ h)

/-- C9: the idle combat invariant (inactive implies empty turn order, empty
enemy list, index 0) holds for the initial combat state and is preserved by
join, act, query, effect resolution, combat end, turn advance, and reset. -/
theorem C9_idle_invariant :
    combatIdleInv defaultCombatState ∧
    (∀ (s : SessionState) (sid pid nm : String) (now : Nat),
      combatIdleInv s.combat → combatIdleInv (handleJoin s sid pid nm now).combat) ∧
    (∀ (s : SessionState) (sid pid a : String) (narr : NarrationResult) (now : Nat),
      combatIdleInv s.combat →
        combatIdleInv (handleAction s sid pid a narr now).1.combat) ∧
    (∀ (s : SessionState) (now : Nat),
      combatIdleInv s.combat → combatIdleInv (handleState s now).1.combat) ∧
    (∀ (text : String) (ps : PlayersMap) (c : CombatState),
      combatIdleInv c → combatIdleInv (applyEffects text ps c).2) ∧
    (∀ c : CombatState, combatIdleInv c → combatIdleInv (checkCombatEnd c)) ∧
    (∀ c : CombatState, combatIdleInv c → combatIdleInv (nextTurn c)) ∧
    (∀ (s : SessionState) (now : Nat), combatIdleInv (resetState s now).combat) := by
  refine ⟨fun _ => ⟨rfl, rfl, rfl⟩, ?_, ?_, ?_, ?_, ?_, ?_, ?_⟩
  · intro s sid pid nm now h
    rw [handleJoin_combat]
    exact h
  · exact fun s sid pid a narr now h => handleAction_idle s sid pid a narr now h
  · intro s now h
    rw [handleState_combat]
    exact h
  · exact fun text ps c h => applyEffects_idle text ps c h
  · exact fun c h => checkCombatEnd_idle c h
  · exact fun c h => nextTurn_idle c h
  · exact fun s now _ => ⟨rfl, rfl, rfl⟩

/-- C9 witness: the preservation steps instantiated at concrete states. -/
theorem C9_idle_invariant_witness :
    combatIdleInv defaultCombatState ∧
    combatIdleInv (handleJoin (initState 0) "s" "p1" "Ann" 1).combat ∧
    combatIdleInv (handleAction annJoin "s" "p1" "hi"
      { text := c1Text, thinking := "", degraded := false } 2).1.combat ∧
    combatIdleInv (handleState annJoin 3).1.combat ∧
    combatIdleInv (applyEffects c1Text c1Players defaultCombatState).2 ∧
    combatIdleInv (checkCombatEnd c1Combat) ∧
    combatIdleInv (nextTurn c1Combat) ∧
    combatIdleInv (resetState annJoin 4).combat :=
  ⟨C9_idle_invariant.1,
   C9_idle_invariant.2.1 (initState 0) "s" "p1" "Ann" 1 (by decide),
   C9_idle_invariant.2.2.1 annJoin "s" "p1" "hi"
     { text := c1Text, thinking := "", degraded := false } 2 (by decide),
   C9_idle_invariant.2.2.2.1 annJoin 3 (by decide),
   C9_idle_invariant.2.2.2.2.1 c1Text c1Players defaultCombatState (by decide),
   C9_idle_invariant.2.2.2.2.2.1 c1Combat (by decide),
   C9_idle_invariant.2.2.2.2.2.2.1 c1Combat (by decide),
   C9_idle_invariant.2.2.2.2.2.2.2 annJoin 4⟩

/-- Detection preserves the turn invariant: on activation the order holds
the players then the (non-empty) enemy list and the index is 0. -/
theorem detect_turnInv (text : String) (ps : PlayersMap) (c : CombatState)
    (h : combatTurnInv c) : combatTurnInv (detectCombatScenarios text ps c) := by
  unfold detectCombatScenarios
  split
  · exact h
  · split
    · exact h
    · dsimp only
      split
      · exact h
      · rename_i hne
        intro _
        constructor
        · simp only [ne_eq, List.append_eq_nil, not_and]
          intro _
          simp only [List.map_eq_nil_iff]
          intro hnil
          rw [hnil] at hne
          exact hne rfl
        · simp only [List.length_append, List.length_map]
          have : scanEnemies text ≠ [] := by
            intro hnil
            rw [hnil] at hne
            exact hne rfl
          have := List.length_pos.mpr this
          omega

/-- Enemy damage preserves the turn invariant. -/
theorem applyEnemyDamage_turnInv (text : String) (c : CombatState)
    (h : combatTurnInv c) : combatTurnInv (applyEnemyDamage text c) := by
  obtain ⟨h1, h2, h3⟩ := applyEnemyDamage_shape text c
  intro ha
  rw [h1] at ha
  rw [h2, h3]
  exact h ha

/-- Combat end preserves the turn invariant. -/
theorem checkCombatEnd_turnInv (c : CombatState) (h : combatTurnInv c) :
    combatTurnInv (checkCombatEnd c) := by
  unfold checkCombatEnd
  split
  · exact h
  · split
    · intro ha; cases ha
    · exact h

/-- Turn advance preserves the turn invariant: the modulo step lands back
inside the (non-empty) order. -/
theorem nextTurn_turnInv (c : CombatState) (h : combatTurnInv c) :
    combatTurnInv (nextTurn c) := by
  unfold nextTurn
  split
  · exact h
  · rename_i hact
    intro _
    simp only [Bool.not_eq_true] at hact
    have hact2 : c.active = true := by simpa using hact
    obtain ⟨hne, _⟩ := h hact2
    refine ⟨hne, ?_⟩
    exact Nat.mod_lt _ (List.length_pos.mpr hne)

/-- Effect resolution preserves the turn invariant. -/
theorem applyEffects_turnInv (text : String) (ps : PlayersMap) (c : CombatState)
    (h : combatTurnInv c) : combatTurnInv (applyEffects text ps c).2 := by
  unfold applyEffects
  exact checkCombatEnd_turnInv _
    (applyEnemyDamage_turnInv _ _ (detect_turnInv _ _ _ h))

/-- The act operation preserves the turn invariant. -/
theorem handleAction_turnInv (s : SessionState) (sid pid a : String)
    (narr : NarrationResult) (now : Nat) (h : combatTurnInv s.combat) :
    combatTurnInv (handleAction s sid pid a narr now).1.combat := by
  rcases handleAction_combat_cases s sid pid a narr now with hc | hc | hc | hc <;> rw [hc]
  · exact h
  · intro ha; cases ha
  · exact applyEffects_turnInv _ _ _ h
  · exact nextTurn_turnInv _ (applyEffects_turnInv _ _ _ h)

/-- Every reachable state satisfies the turn invariant. -/
theorem reachable_turnInv {s : SessionState} (h : Reachable s) :
    combatTurnInv s.combat := by
  induction h with
  | init t0 => intro ha; cases ha
  | join sid pid nm now _ ih =>
    rw [handleJoin_combat]
    exact ih
  | act sid pid actionText narr now _ ih =>
    exact handleAction_turnInv _ _ _ _ _ _ ih
  | query now _ ih =>
    rw [handleState_combat]
    exact ih

/-- C10 (amended): in every state reachable through join/act/query, while
combat is active the turn order is non-empty and the index is in range, so
the modulo step of `nextTurn` is well-defined; and `getCurrentTurn` returns
a participant of the turn order provided every participant name is
non-empty (an empty-string name is falsy in the source's
`turnOrder[i] || null` and yields null instead). -/
theorem C10_turn_invariant (s : SessionState) (h : Reachable s)
    (ha : s.combat.active = true) :
    s.combat.turnOrder ≠ [] ∧
    s.combat.currentTurnIndex < s.combat.turnOrder.length ∧
    ((∀ nm ∈ s.combat.turnOrder, nm ≠ "") →
      ∃ nm, getCurrentTurn s.combat = some nm ∧ nm ∈ s.combat.turnOrder) := by
  obtain ⟨hne, hlt⟩ := reachable_turnInv h ha
  refine ⟨hne, hlt, ?_⟩
  intro hnm
  have hget : s.combat.turnOrder.get? s.combat.currentTurnIndex =
      some (s.combat.turnOrder.get ⟨s.combat.currentTurnIndex, hlt⟩) :=
    List.get?_eq_get hlt
  have hmem : s.combat.turnOrder.get ⟨s.combat.currentTurnIndex, hlt⟩ ∈
      s.combat.turnOrder := List.get_mem _ _ _
  have hne2 := hnm _ hmem
  refine ⟨s.combat.turnOrder.get ⟨s.combat.currentTurnIndex, hlt⟩, ?_, hmem⟩
  have hcond : (!s.combat.active || s.combat.turnOrder.isEmpty) = false := by
    simp [ha, hne]
  rw [List.get_eq_getElem] at hne2
  unfold getCurrentTurn
  simp only [hcond, Bool.false_eq_true, if_false, hget]
  simp [hne2]

/-- C10 counterexample to the claim as stated: a player may join with the
empty string as display name (the payload validator only checks `name` is a
string); once the narrator opens combat, the reachable state has combat
active with turn order `["", "Goblin"]`, and `getCurrentTurn` returns null
while combat is active, because the empty name is falsy. -/
theorem C10_counterexample :
    Reachable c10State ∧ c10State.combat.active = true ∧
    getCurrentTurn c10State.combat = none :=
  ⟨Reachable.act "s" "p1" "hello"
      { text := "A goblin attacks!", thinking := "", degraded := false } 0
      (Reachable.join "s" "p1" "" 0 (Reachable.init 0)),
   by decide, by decide⟩

/-- C10 witness: Ann's combat-active reachable state has a non-empty turn
order, an in-range index, and a current participant. -/
theorem C10_turn_invariant_witness :
    annCombatState.combat.active = true ∧
    (annCombatState.combat.turnOrder ≠ [] ∧
     annCombatState.combat.currentTurnIndex <
       annCombatState.combat.turnOrder.length ∧
     ((∀ nm ∈ annCombatState.combat.turnOrder, nm ≠ "") →
       ∃ nm, getCurrentTurn annCombatState.combat = some nm ∧
         nm ∈ annCombatState.combat.turnOrder)) :=
  ⟨by decide,
   C10_turn_invariant annCombatState
     (Reachable.act "s" "p1" "I look around"
       { text := "A goblin attacks!", thinking := "", degraded := false } 0
       (Reachable.join "s" "p1" "Ann" 0 (Reachable.init 0)))
     (by decide)⟩
